import Mathlib

/-!
# Verification of the atomizer dispatcher against its specification

This file shallowly embeds the atomizer repository's core
(`src/interfaces/properties.go`, atomizer part) and the `Electron`
data model (whose implementation file is absent from `src/`; it is
modelled from the spec and corroborated by `src/electron_test.go`).

Conventions:
* Go byte slices are `List Nat` with each element `< 256`.
* Go `time.Now()` is modelled by a clock oracle `clock : Nat → Nat`
  mapping the index of the call to the returned timestamp.
* Channels and goroutines are modelled by explicit traces: each loop
  of the dispatcher becomes a function from the list of items it
  drains to the list of externally visible actions it performs.
-/

namespace Atomizer

/-- Modelled from the spec: the `Electron` work request
(`electron.go` is missing from `src/`; fields per spec §3 and the
wire-format section §6, names per `src/electron_test.go`).
`Payload` is a Go byte slice; `Timeout` a nullable duration in
nanoseconds; `CopyState` a boolean hint. -/
structure Electron where
  SenderID : String
  ID : String
  AtomID : String
  Payload : List Nat
  Timeout : Option Nat
  CopyState : Bool
deriving DecidableEq, Repr

/-- Modelled from the spec: `Electron.Validate`, the validator
capability consulted by `validator.Valid` — "Validity: `SenderID`,
`ID`, `AtomID` all non-empty" (spec §3), corroborated by
`TestElectron_Validate` in `src/electron_test.go`. -/
def Electron.Validate (e : Electron) : Bool :=
  !(e.SenderID == "") && !(e.ID == "") && !(e.AtomID == "")

/-- The `noopelectron` test fixture from `src/electron_test.go`
(payload-free electron with all three IDs set to "empty"). -/
def noopelectron : Electron :=
  { SenderID := "empty", ID := "empty", AtomID := "empty"
    Payload := [], Timeout := none, CopyState := false }

/-! ## Base64 (standard alphabet, as used by Go `encoding/base64.StdEncoding`)

Modelled from the spec §6: the payload serializer base64-encodes
non-JSON payloads and base64-decodes string payloads. Bytes are `Nat`
values `< 256`; characters are their ASCII codes. Decoding is lenient
about non-zero trailing padding bits, as Go's default decoder is. -/

/-- ASCII code of the standard base64 alphabet character of a 6-bit value. -/
def b64char (n : Nat) : Nat :=
  if n < 26 then 65 + n
  else if n < 52 then 97 + (n - 26)
  else if n < 62 then 48 + (n - 52)
  else if n = 62 then 43
  else 47

/-- Inverse alphabet: ASCII code to 6-bit value, `none` off-alphabet. -/
def b64val (c : Nat) : Option Nat :=
  if 65 ≤ c ∧ c ≤ 90 then some (c - 65)
  else if 97 ≤ c ∧ c ≤ 122 then some (c - 97 + 26)
  else if 48 ≤ c ∧ c ≤ 57 then some (c - 48 + 52)
  else if c = 43 then some 62
  else if c = 47 then some 63
  else none

/-- Base64-encode a byte sequence (ASCII codes out, `61` is `=` padding). -/
def b64encode : List Nat → List Nat
  | [] => []
  | [b1] => [b64char (b1 / 4), b64char (b1 % 4 * 16), 61, 61]
  | [b1, b2] =>
    [b64char (b1 / 4), b64char (b1 % 4 * 16 + b2 / 16), b64char (b2 % 16 * 4), 61]
  | b1 :: b2 :: b3 :: rest =>
    b64char (b1 / 4) :: b64char (b1 % 4 * 16 + b2 / 16) ::
      b64char (b2 % 16 * 4 + b3 / 64) :: b64char (b3 % 64) :: b64encode rest

/-- Base64-decode an ASCII sequence; `none` on off-alphabet characters,
misplaced padding, or length not a multiple of four. -/
def b64decode : List Nat → Option (List Nat)
  | [] => some []
  | c1 :: c2 :: c3 :: c4 :: rest =>
    match b64val c1, b64val c2 with
    | some v1, some v2 =>
      if c3 = 61 then
        if c4 = 61 ∧ rest = [] then some [v1 * 4 + v2 / 16] else none
      else
        match b64val c3 with
        | some v3 =>
          if c4 = 61 then
            if rest = [] then
              some [v1 * 4 + v2 / 16, v2 % 16 * 16 + v3 / 4]
            else none
          else
            match b64val c4, b64decode rest with
            | some v4, some bs =>
              some ((v1 * 4 + v2 / 16) :: (v2 % 16 * 16 + v3 / 4) ::
                (v3 % 4 * 64 + v4) :: bs)
            | _, _ => none
        | none => none
    | _, _ => none
  | _ => none

theorem b64val_b64char : ∀ n < 64, b64val (b64char n) = some n := by decide

theorem b64char_bounds (n : Nat) :
    32 ≤ b64char n ∧ b64char n ≠ 34 ∧ b64char n ≠ 92 ∧ b64char n ≠ 61 := by
  unfold b64char
  repeat' split
  all_goals omega

@[simp] theorem b64char_ne_pad (n : Nat) : ¬ b64char n = 61 :=
  (b64char_bounds n).2.2.2

/-- Every character emitted by the base64 encoder is printable,
not a quote and not a backslash (needed to parse it back as the body
of a JSON string literal). -/
theorem b64encode_good (p : List Nat) :
    ∀ c ∈ b64encode p, 32 ≤ c ∧ c ≠ 34 ∧ c ≠ 92 := by
  have hg : ∀ n, 32 ≤ b64char n ∧ b64char n ≠ 34 ∧ b64char n ≠ 92 := fun n =>
    ⟨(b64char_bounds n).1, (b64char_bounds n).2.1, (b64char_bounds n).2.2.1⟩
  induction p using b64encode.induct with
  | case1 => simp [b64encode]
  | case2 b1 =>
    intro c hc
    simp [b64encode] at hc
    rcases hc with h | h | h <;> first | (subst h; exact hg _) | omega
  | case3 b1 b2 =>
    intro c hc
    simp [b64encode] at hc
    rcases hc with h | h | h | h <;> first | (subst h; exact hg _) | omega
  | case4 b1 b2 b3 rest ih =>
    intro c hc
    simp only [b64encode, List.mem_cons] at hc
    rcases hc with h | h | h | h | h <;>
      first | (subst h; exact hg _) | exact ih c h

/-- Decoding inverts encoding on genuine byte sequences. -/
theorem b64decode_encode (p : List Nat) (h : ∀ b ∈ p, b < 256) :
    b64decode (b64encode p) = some p := by
  induction p using b64encode.induct with
  | case1 => simp [b64encode, b64decode]
  | case2 b1 =>
    have hb1 : b1 < 256 := h b1 (by simp)
    have h1 := b64val_b64char (b1 / 4) (by omega)
    have h2 := b64val_b64char (b1 % 4 * 16) (by omega)
    simp [b64encode, b64decode, h1, h2]
    omega
  | case3 b1 b2 =>
    have hb1 : b1 < 256 := h b1 (by simp)
    have hb2 : b2 < 256 := h b2 (by simp)
    have h1 := b64val_b64char (b1 / 4) (by omega)
    have h2 := b64val_b64char (b1 % 4 * 16 + b2 / 16) (by omega)
    have h3 := b64val_b64char (b2 % 16 * 4) (by omega)
    simp [b64encode, b64decode, h1, h2, h3]
    omega
  | case4 b1 b2 b3 rest ih =>
    have hb1 : b1 < 256 := h b1 (by simp)
    have hb2 : b2 < 256 := h b2 (by simp)
    have hb3 : b3 < 256 := h b3 (by simp)
    have h1 := b64val_b64char (b1 / 4) (by omega)
    have h2 := b64val_b64char (b1 % 4 * 16 + b2 / 16) (by omega)
    have h3 := b64val_b64char (b2 % 16 * 4 + b3 / 64) (by omega)
    have h4 := b64val_b64char (b3 % 64) (by omega)
    have hrest : b64decode (b64encode rest) = some rest :=
      ih (fun b hb => h b (by simp [hb]))
    simp [b64encode, b64decode, h1, h2, h3, h4, hrest]
    omega

/-! ## JSON values and a byte-level JSON parser

Modelled from the spec §6: the payload serializer must classify a byte
sequence as "valid JSON" or not, and must recognise a wire payload that
is a JSON string. Numbers keep their source characters (the dispatcher
never interprets them); object member order is preserved. The parser is
fuelled; `parseJson` supplies ample fuel for its input. -/

inductive Json where
  | null
  | bool (b : Bool)
  | num (digits : List Nat)
  | str (s : List Nat)
  | arr (xs : List Json)
  | obj (fields : List (List Nat × Json))

def isWs (c : Nat) : Bool := c == 32 || c == 9 || c == 10 || c == 13

def skipWs : List Nat → List Nat
  | [] => []
  | c :: rest => if isWs c then skipWs rest else c :: rest

def hexVal (c : Nat) : Option Nat :=
  if 48 ≤ c ∧ c ≤ 57 then some (c - 48)
  else if 65 ≤ c ∧ c ≤ 70 then some (c - 65 + 10)
  else if 97 ≤ c ∧ c ≤ 102 then some (c - 97 + 10)
  else none

/-- Single-character JSON escapes. -/
def escChar (c : Nat) : Option Nat :=
  if c = 34 then some 34
  else if c = 92 then some 92
  else if c = 47 then some 47
  else if c = 98 then some 8
  else if c = 102 then some 12
  else if c = 110 then some 10
  else if c = 114 then some 13
  else if c = 116 then some 9
  else none

/-- Parse the body of a JSON string literal after the opening quote,
returning the (unescaped) contents and the input after the closing
quote. -/
def parseStrBody : List Nat → Option (List Nat × List Nat)
  | [] => none
  | c :: rest =>
    if c = 34 then some ([], rest)
    else if c = 92 then
      match rest with
      | [] => none
      | e :: rest2 =>
        if e = 117 then
          match rest2 with
          | h1 :: h2 :: h3 :: h4 :: rest3 =>
            match hexVal h1, hexVal h2, hexVal h3, hexVal h4,
                parseStrBody rest3 with
            | some a, some b, some hc, some d, some (s, r) =>
              some ((a * 4096 + b * 256 + hc * 16 + d) :: s, r)
            | _, _, _, _, _ => none
          | _ => none
        else
          match escChar e, parseStrBody rest2 with
          | some ch, some (s, r) => some (ch :: s, r)
          | _, _ => none
    else if c < 32 then none
    else
      match parseStrBody rest with
      | some (s, r) => some (c :: s, r)
      | none => none

def isDigit (c : Nat) : Bool := 48 ≤ c && c ≤ 57

/-- Split the longest run of leading decimal digits from the input. -/
def takeDigits : List Nat → List Nat × List Nat
  | [] => ([], [])
  | c :: rest =>
    if isDigit c then
      let p := takeDigits rest
      (c :: p.1, p.2)
    else ([], c :: rest)

/-- Optional fraction part of a JSON number. -/
def parseFrac : List Nat → Option (List Nat × List Nat)
  | 46 :: r =>
    match takeDigits r with
    | ([], _) => none
    | (ds, rest) => some (46 :: ds, rest)
  | r => some ([], r)

/-- Optional exponent part of a JSON number. -/
def parseExp : List Nat → Option (List Nat × List Nat)
  | c :: r =>
    if c = 101 ∨ c = 69 then
      let sr : List Nat × List Nat :=
        match r with
        | 43 :: rr => ([43], rr)
        | 45 :: rr => ([45], rr)
        | rr => ([], rr)
      match takeDigits sr.2 with
      | ([], _) => none
      | (ds, rest) => some (c :: (sr.1 ++ ds), rest)
    else some ([], c :: r)
  | [] => some ([], [])

/-- Parse a JSON number (optional minus, digits, optional fraction and
exponent; leading-zero restrictions are not modelled). -/
def parseNum (input : List Nat) : Option (Json × List Nat) :=
  let mr : List Nat × List Nat :=
    match input with
    | 45 :: r => ([45], r)
    | r => ([], r)
  match takeDigits mr.2 with
  | ([], _) => none
  | (ds, rest2) =>
    match parseFrac rest2 with
    | none => none
    | some (fs, rest3) =>
      match parseExp rest3 with
      | none => none
      | some (es, rest4) => some (Json.num (mr.1 ++ ds ++ fs ++ es), rest4)

/-- Fuelled JSON value parser. An array or object continuation is
parsed by re-synthesising the opening bracket in front of the rest of
the input, so one function suffices. -/
def parseVal : Nat → List Nat → Option (Json × List Nat)
  | 0, _ => none
  | fuel + 1, input =>
    match skipWs input with
    | 110 :: 117 :: 108 :: 108 :: rest => some (Json.null, rest)
    | 116 :: 114 :: 117 :: 101 :: rest => some (Json.bool true, rest)
    | 102 :: 97 :: 108 :: 115 :: 101 :: rest => some (Json.bool false, rest)
    | 34 :: rest =>
      match parseStrBody rest with
      | some (s, r) => some (Json.str s, r)
      | none => none
    | 91 :: rest =>
      match skipWs rest with
      | 93 :: r => some (Json.arr [], r)
      | r1 =>
        match parseVal fuel r1 with
        | some (v, r2) =>
          match skipWs r2 with
          | 44 :: r3 =>
            match parseVal fuel (91 :: r3) with
            | some (Json.arr vs, r4) =>
              if vs.isEmpty then none else some (Json.arr (v :: vs), r4)
            | _ => none
          | 93 :: r3 => some (Json.arr [v], r3)
          | _ => none
        | none => none
    | 123 :: rest =>
      match skipWs rest with
      | 125 :: r => some (Json.obj [], r)
      | 34 :: kr =>
        match parseStrBody kr with
        | some (k, r2) =>
          match skipWs r2 with
          | 58 :: r3 =>
            match parseVal fuel r3 with
            | some (v, r4) =>
              match skipWs r4 with
              | 44 :: r5 =>
                match parseVal fuel (123 :: r5) with
                | some (Json.obj fs, r6) =>
                  if fs.isEmpty then none
                  else some (Json.obj ((k, v) :: fs), r6)
                | _ => none
              | 125 :: r5 => some (Json.obj [(k, v)], r5)
              | _ => none
            | none => none
          | _ => none
        | none => none
      | _ => none
    | rest => parseNum rest

/-- Parse a whole byte sequence as one JSON value (surrounding
whitespace allowed, nothing else may follow). -/
def parseJson (p : List Nat) : Option Json :=
  match parseVal (2 * p.length + 8) p with
  | some (j, rest) => if skipWs rest = [] then some j else none
  | none => none

theorem parseStrBody_plain (cs r : List Nat)
    (h : ∀ c ∈ cs, 32 ≤ c ∧ c ≠ 34 ∧ c ≠ 92) :
    parseStrBody (cs ++ 34 :: r) = some (cs, r) := by
  induction cs with
  | nil =>
    unfold parseStrBody
    simp
  | cons c cs ih =>
    obtain ⟨h1, h2, h3⟩ := h c (by simp)
    have h4 : ¬ c < 32 := by omega
    have ihr := ih (fun x hx => h x (by simp [hx]))
    unfold parseStrBody
    simp [h2, h3, h4, ihr]

theorem parseVal_quoted (fuel : Nat) (cs r : List Nat)
    (h : ∀ c ∈ cs, 32 ≤ c ∧ c ≠ 34 ∧ c ≠ 92) :
    parseVal (fuel + 1) (34 :: (cs ++ 34 :: r)) = some (Json.str cs, r) := by
  simp [parseVal, skipWs, isWs, parseStrBody_plain cs r h]

/-- A quoted base64 body parses back to the JSON string of that body. -/
theorem parseJson_quoted (cs : List Nat)
    (h : ∀ c ∈ cs, 32 ≤ c ∧ c ≠ 34 ∧ c ≠ 92) :
    parseJson (34 :: (cs ++ [34])) = some (Json.str cs) := by
  have hq := parseVal_quoted (2 * (34 :: (cs ++ [34])).length + 7) cs [] h
  simp only [List.length_cons, List.length_append] at hq
  unfold parseJson
  simp only [List.length_cons, List.length_append]
  norm_num at hq ⊢
  rw [hq]
  simp [skipWs]

/-! ## Electron wire codec

Modelled from the spec §6 (the Go `electron.go` with `MarshalJSON` and
`UnmarshalJSON` is missing from `src/`): the wire form is a JSON object
with fields `senderid`, `id`, `atomid` and an optional `payload`; it is
modelled as a structure, keeping the payload field as the raw bytes of
its JSON value. On emit the payload is written as its raw bytes
verbatim when valid JSON, otherwise base64-encoded into a JSON string;
on decode a payload that is a JSON string of valid base64 becomes the
decoded bytes, any other JSON value is preserved as its raw JSON
encoding. An absent/empty payload is omitted. -/

structure ElectronWire where
  senderid : String
  id : String
  atomid : String
  payload : Option (List Nat)
  timeout : Option Nat
  copystate : Bool
deriving DecidableEq, Repr

/-- Modelled from the spec: payload emission (spec §6, "On emit,
payload is written as its raw bytes verbatim when valid JSON, otherwise
base64-encoded"). -/
def encodePayload (p : List Nat) : Option (List Nat) :=
  if p = [] then none
  else if (parseJson p).isSome then some p
  else some (34 :: (b64encode p ++ [34]))

/-- Modelled from the spec: `Electron.MarshalJSON`. -/
def Electron.MarshalJSON (e : Electron) : ElectronWire :=
  { senderid := e.SenderID, id := e.ID, atomid := e.AtomID
    payload := encodePayload e.Payload
    timeout := e.Timeout, copystate := e.CopyState }

/-- Modelled from the spec: payload decoding (spec §6, "on decode, a
base64 string is decoded to raw bytes, a non-base64 JSON value is
preserved as its raw JSON encoding"). A wire payload that is not valid
JSON is a decode error. -/
def decodePayload (raw : List Nat) : Option (List Nat) :=
  match parseJson raw with
  | none => none
  | some (Json.str s) =>
    match b64decode s with
    | some bs => some bs
    | none => some raw
  | some _ => some raw

/-- Modelled from the spec: `Electron.UnmarshalJSON`. -/
def Electron.UnmarshalJSON (w : ElectronWire) : Option Electron :=
  match w.payload with
  | none =>
    some { SenderID := w.senderid, ID := w.id, AtomID := w.atomid
           Payload := [], Timeout := w.timeout, CopyState := w.copystate }
  | some raw =>
    match decodePayload raw with
    | some p =>
      some { SenderID := w.senderid, ID := w.id, AtomID := w.atomid
             Payload := p, Timeout := w.timeout, CopyState := w.copystate }
    | none => none

/-- A payload is ambiguous when it is itself a JSON string literal
whose contents are valid base64: the decoder then turns it into the
base64-decoded bytes instead of preserving it. -/
def PayloadAmbiguous (p : List Nat) : Bool :=
  match parseJson p with
  | some (Json.str s) => (b64decode s).isSome
  | _ => false

/-- The `nonb64` test fixture of `src/electron_test.go`: payload is
the bytes of the JSON text `\x7b"test":"test"\x7d`. -/
def nonb64 : Electron :=
  { SenderID := "empty", ID := "empty", AtomID := "empty"
    Payload := [123, 34, 116, 101, 115, 116, 34, 58,
                34, 116, 101, 115, 116, 34, 125]
    Timeout := none, CopyState := false }

/-- An electron whose payload is the 6 bytes of the JSON text
`"aGk="` — a JSON string literal whose contents are valid base64
(decoding to the two bytes of `hi`). -/
def ambiguousElectron : Electron :=
  { SenderID := "s", ID := "e1", AtomID := "a"
    Payload := [34, 97, 71, 107, 61, 34], Timeout := none
    CopyState := false }

/-! ## C1 -/

/-- C1: an Electron is valid iff `SenderID`, `ID` and `AtomID` are all
non-empty, and no other field (`Payload`, `Timeout`, `CopyState`)
influences validity. -/
theorem electron_validate_iff (e : Electron) :
    (e.Validate = true ↔ e.SenderID ≠ "" ∧ e.ID ≠ "" ∧ e.AtomID ≠ "") ∧
    (∀ p t c, Electron.Validate
        { SenderID := e.SenderID, ID := e.ID, AtomID := e.AtomID
          Payload := p, Timeout := t, CopyState := c } = e.Validate) := by
  constructor
  · simp [Electron.Validate]
    tauto
  · intro p t c
    rfl

/-- The modelled validator agrees with every row of
`TestElectron_Validate` in `src/electron_test.go`. -/
theorem electron_validate_testdata :
    noopelectron.Validate = true ∧
    (Electron.mk "" "" "" [] none false).Validate = false ∧
    (Electron.mk "test" "" "" [] none false).Validate = false ∧
    (Electron.mk "" "" "test" [] none false).Validate = false ∧
    (Electron.mk "" "test" "" [] none false).Validate = false ∧
    (Electron.mk "test" "" "test" [] none false).Validate = false ∧
    (Electron.mk "test" "test" "" [] none false).Validate = false ∧
    (Electron.mk "" "test" "test" [] none false).Validate = false := by
  decide

/-! ## C2 -/

/-- C2 counterexample: for the electron whose payload is the JSON text
`"aGk="`, decoding the encoding yields the payload `hi` (104, 105),
not the original bytes: `decode(encode(e)) != e`. -/
theorem electron_roundtrip_counterexample :
    Electron.UnmarshalJSON (Electron.MarshalJSON ambiguousElectron) =
      some { SenderID := "s", ID := "e1", AtomID := "a"
             Payload := [104, 105], Timeout := none, CopyState := false } ∧
    Electron.UnmarshalJSON (Electron.MarshalJSON ambiguousElectron) ≠
      some ambiguousElectron := by
  decide

/-- C2 (amended): for every Electron whose payload consists of bytes
and is not itself a JSON string literal of valid base64 contents,
JSON-decoding the JSON encoding yields the electron back; moreover the
payload bytes are recovered from the base64-string wire form (and, by
the round trip, from the embedded-JSON wire form when the payload is
valid JSON). -/
theorem electron_roundtrip (e : Electron)
    (hb : ∀ b ∈ e.Payload, b < 256)
    (hna : PayloadAmbiguous e.Payload = false) :
    Electron.UnmarshalJSON (Electron.MarshalJSON e) = some e ∧
    decodePayload (34 :: (b64encode e.Payload ++ [34])) =
      some e.Payload := by
  have hb64 : decodePayload (34 :: (b64encode e.Payload ++ [34])) =
      some e.Payload := by
    have hq := parseJson_quoted (b64encode e.Payload)
      (b64encode_good e.Payload)
    simp [decodePayload, hq, b64decode_encode e.Payload hb]
  refine ⟨?_, hb64⟩
  obtain ⟨s, i, a, p, t, c⟩ := e
  simp only at hb hna hb64 ⊢
  by_cases hp : p = []
  · subst hp
    simp [Electron.MarshalJSON, Electron.UnmarshalJSON, encodePayload]
  · rcases hj : parseJson p with _ | j
    · simp only [Electron.MarshalJSON, Electron.UnmarshalJSON,
        encodePayload, hp, if_neg, hj, Option.isSome_none]
      simp [hb64]
    · cases j with
      | str sl =>
        have hdec : b64decode sl = none := by
          simp only [PayloadAmbiguous, hj] at hna
          exact Option.not_isSome_iff_eq_none.mp (by simp [hna])
        simp [Electron.MarshalJSON, Electron.UnmarshalJSON,
          encodePayload, hp, hj, decodePayload, hdec]
      | null =>
        simp [Electron.MarshalJSON, Electron.UnmarshalJSON,
          encodePayload, hp, hj, decodePayload]
      | bool b =>
        simp [Electron.MarshalJSON, Electron.UnmarshalJSON,
          encodePayload, hp, hj, decodePayload]
      | num ds =>
        simp [Electron.MarshalJSON, Electron.UnmarshalJSON,
          encodePayload, hp, hj, decodePayload]
      | arr xs =>
        simp [Electron.MarshalJSON, Electron.UnmarshalJSON,
          encodePayload, hp, hj, decodePayload]
      | obj fs =>
        simp [Electron.MarshalJSON, Electron.UnmarshalJSON,
          encodePayload, hp, hj, decodePayload]

/-- C2 witness: the round trip at the `nonb64` fixture of
`src/electron_test.go` (payload is the JSON text of a small object,
recovered both via the embedded-JSON form and the base64 form). -/
theorem electron_roundtrip_witness :
    Electron.UnmarshalJSON (Electron.MarshalJSON nonb64) = some nonb64 ∧
    decodePayload (34 :: (b64encode nonb64.Payload ++ [34])) =
      some nonb64.Payload :=
  electron_roundtrip nonb64 (by decide) (by decide)

/-! ## The dispatcher core

Embedded from the atomizer implementation in
`src/interfaces/properties.go` (the `package atomizer` part). Each
long-lived loop is modelled as a function from the list of items it
drains, while the dispatcher is live (its cancellation context not
fired), to the list of externally visible actions it performs, in
order. `time.Now()` is a clock oracle `clock : Nat → Nat` indexed by
the call count. -/

/-- The completion record (`Properties` literal built in `conduct` /
`exec`). `Error` is the error value (`none` = nil). -/
structure Props where
  ElectronID : String
  AtomID : String
  Start : Nat
  End : Nat
  Error : Option String
  Result : Option (List Nat)
deriving DecidableEq, Repr

/-- The `instance` pairing of one electron with the conductor it came
from (the conductor abstracted to its identity). -/
structure Instance where
  electron : Electron
  conductor : String
deriving DecidableEq, Repr

/-- Externally visible actions of the conductor adapter loop
(`conduct`): calls to `conductor.Complete`, emitted events, and
electrons forwarded onto the dispatcher intake channel. -/
inductive ConductOut where
  | completed (p : Props)
  | evt (msg : String)
  | forwarded (e : Electron)
deriving DecidableEq, Repr

/-- The conductor adapter receive loop (`conduct`), on the electrons
pulled from the conductor's receive stream: an invalid electron
produces one failure `Properties` — whose `Start` and `End` are two
consecutive `time.Now()` readings, in that order — one
`conductor.Complete` call and an error event, and the loop continues;
a valid electron is forwarded to intake between two events. `t` is the
index of the next `time.Now()` call. -/
def conduct (clock : Nat → Nat) : Nat → List Electron → List ConductOut
  | _, [] => []
  | t, e :: rest =>
    if e.Validate then
      ConductOut.evt "electron received" ::
        ConductOut.forwarded e ::
          ConductOut.evt "electron distributed" :: conduct clock t rest
    else
      ConductOut.completed
        { ElectronID := e.ID, AtomID := e.AtomID
          Start := clock t, End := clock (t + 1)
          Error := some "invalid electron", Result := none } ::
        ConductOut.evt "invalid electron" :: conduct clock (t + 2) rest

/-- The `conductor.Complete` calls of a conductor-adapter trace. -/
def completions (outs : List ConductOut) : List Props :=
  outs.filterMap fun o =>
    match o with
    | ConductOut.completed p => some p
    | _ => none

/-- The electrons a conductor-adapter trace forwarded to intake. -/
def forwards (outs : List ConductOut) : List Electron :=
  outs.filterMap fun o =>
    match o with
    | ConductOut.forwarded e => some e
    | _ => none

/-- An invalid electron (empty `ID`), as in scenario 4 of spec §8. -/
def invalidElectron : Electron :=
  { SenderID := "s", ID := "", AtomID := "a"
    Payload := [], Timeout := none, CopyState := false }

/-- Routing-table lookup (`a.atoms[inst.electron.AtomID]`). -/
def lookupAtoms : List (String × Nat) → String → Option Nat
  | [], _ => none
  | (k, v) :: rest, key => if k = key then some v else lookupAtoms rest key

/-- Externally visible actions of the distribution loop
(`distribute`): emitted events and instances pushed onto a registered
atom channel. A `completed` constructor is included so that "the
conductor's Complete is not called" is expressible. -/
inductive DistOut where
  | completed (p : Props)
  | evt (msg : String) (atomID : String)
  | pushed (ch : Nat) (inst : Instance)
deriving DecidableEq, Repr

/-- The distribution loop (`distribute`), on the instances drained
from the intake channel: an instance whose `AtomID` has no
routing-table entry yields only a "not registered" error event and is
dropped; otherwise the instance is pushed onto the registered channel
between two events. -/
def distribute (atoms : List (String × Nat)) : List Instance → List DistOut
  | [] => []
  | inst :: rest =>
    match lookupAtoms atoms inst.electron.AtomID with
    | none =>
      DistOut.evt "not registered" inst.electron.AtomID ::
        distribute atoms rest
    | some ch =>
      DistOut.evt "pushing electron to atom" inst.electron.AtomID ::
        DistOut.pushed ch inst ::
          DistOut.evt "pushed electron to atom" inst.electron.AtomID ::
            distribute atoms rest

/-- The `Complete` calls of a distribution trace. -/
def distCompletions (outs : List DistOut) : List Props :=
  outs.filterMap fun o =>
    match o with
    | DistOut.completed p => some p
    | _ => none

/-- The channel pushes of a distribution trace. -/
def pushes (outs : List DistOut) : List (Nat × Instance) :=
  outs.filterMap fun o =>
    match o with
    | DistOut.pushed ch i => some (ch, i)
    | _ => none

/-- An atom value: its (type-derived) identity and its field state. -/
structure AtomVal where
  ty : String
  fields : List Nat
deriving DecidableEq, Repr

/-- `reflect.New(reflect.TypeOf(atom).Elem())` as performed by
`_split`: a freshly allocated value of the prototype's type with every
field at its zero value (`reflect.New` zero-initialises, it copies
nothing from the prototype). -/
def reflectNew (proto : AtomVal) : AtomVal :=
  { ty := proto.ty, fields := proto.fields.map (fun _ => 0) }

/-- The atom adapter fan-out loop (`_split`), projected to the
`(instance, atom)` pairs handed to `exec`: every received instance is
paired with a fresh `reflect.New` allocation of the prototype,
independent of any other invocation. -/
def splitHanded (proto : AtomVal) (insts : List Instance) :
    List (Instance × AtomVal) :=
  insts.map (fun i => (i, reflectNew proto))

/-- A runtime registration: a conductor or an atom (or an unknown
input), abstracted to its identity (`ID(input)`) and whether
`validator.Valid` accepts it. -/
inductive Registration where
  | conductor (id : String) (valid : Bool)
  | atom (id : String) (valid : Bool)
  | other (id : String) (valid : Bool)
deriving DecidableEq, Repr

/-- `validator.Valid` on a registration input. -/
def Registration.valid : Registration → Bool
  | .conductor _ v => v
  | .atom _ v => v
  | .other _ v => v

/-- Dispatcher state touched by registration: the routing table
(`a.atoms`), the started conductor adapters (`conduct` goroutines),
the started atom adapters (`split` goroutines), and a supply of fresh
channels. -/
structure AtomizerState where
  atoms : List (String × Nat)
  conductAdapters : List String
  atomAdapters : List String
  nextChan : Nat
deriving DecidableEq, Repr

/-- Insert-or-replace on the routing table
(`a.atoms[ID(atom)] = a.split(atom)` on a Go map). -/
def insertAtom : List (String × Nat) → String → Nat → List (String × Nat)
  | [], k, v => [(k, v)]
  | (k0, v0) :: rest, k, v =>
    if k0 = k then (k, v) :: rest else (k0, v0) :: insertAtom rest k v

/-- `receiveConductor`: an invalid conductor yields an error and
nothing else happens; a valid one starts its adapter goroutine. -/
def receiveConductor (st : AtomizerState) (id : String) (valid : Bool) :
    Option String × AtomizerState :=
  if valid then
    (none, { st with conductAdapters := st.conductAdapters ++ [id] })
  else (some "invalid conductor", st)

/-- `receiveAtom`: an invalid atom yields an error and nothing else
happens; a valid one gets a fresh channel and adapter goroutine via
`split` and the channel is stored in the routing table. -/
def receiveAtom (st : AtomizerState) (id : String) (valid : Bool) :
    Option String × AtomizerState :=
  if valid then
    (none,
     { atoms := insertAtom st.atoms id st.nextChan
       conductAdapters := st.conductAdapters
       atomAdapters := st.atomAdapters ++ [id]
       nextChan := st.nextChan + 1 })
  else (some "invalid atom", st)

/-- One step of the registration loop (`register`): an invalid input
produces an "invalid registration" event and — the code has no early
return there — still enters the type switch, where `receiveConductor`
or `receiveAtom` validates again and rejects it, so nothing starts.
(`receiveAtom`'s own "registered electron channel" event is folded
into the step's event list.) -/
def register (st : AtomizerState) (r : Registration) :
    AtomizerState × List String :=
  let pre : List String :=
    if r.valid then [] else ["invalid registration"]
  match r with
  | .conductor id v =>
    match receiveConductor st id v with
    | (none, st2) => (st2, pre ++ ["conductor received"])
    | (some _, st2) => (st2, pre)
  | .atom id v =>
    match receiveAtom st id v with
    | (none, st2) =>
      (st2, pre ++ ["registered electron channel", "atom received"])
    | (some _, st2) => (st2, pre)
  | .other _ _ => (st, pre ++ ["unknown registration type"])

/-- Possible outcomes of one event emission (`event`). -/
inductive EmitOutcome where
  | delivered
  | droppedNoConsumer
  | droppedInvalid
  | returnedCancelled
deriving DecidableEq, Repr

/-- The event emission path (`event`): with a nil events channel the
event is dropped; otherwise an event failing `validator.Valid` is
skipped; otherwise the select returns on a done dispatcher context or
delivers on the events channel. -/
def event (hasConsumer cancelled valid : Bool) : EmitOutcome :=
  if !hasConsumer then EmitOutcome.droppedNoConsumer
  else if !valid then EmitOutcome.droppedInvalid
  else if cancelled then EmitOutcome.returnedCancelled
  else EmitOutcome.delivered

/-! ## C3 -/

/-- C3 counterexample: under the identity clock — the clock advancing
by one between the two `time.Now()` calls of the failure `Properties`
literal — the completion reported for an invalid electron has
`Start = 0` and `End = 1`, refuting `Start == End`. -/
theorem conduct_start_end_counterexample :
    completions (conduct (fun n => n) 0 [invalidElectron]) =
      [{ ElectronID := "", AtomID := "a", Start := 0, End := 1
         Error := some "invalid electron", Result := none }] ∧
    ({ ElectronID := "", AtomID := "a", Start := 0, End := 1
       Error := some "invalid electron", Result := none } : Props).Start ≠
      ({ ElectronID := "", AtomID := "a", Start := 0, End := 1
         Error := some "invalid electron", Result := none } : Props).End := by
  decide

/-- C3 (amended): for every invalid inbound electron the conductor
adapter calls `conductor.Complete` exactly once, with a Properties
whose `Error` is populated and whose `Start` and `End` are two
consecutive clock readings — so `Start ≤ End` for a monotone clock,
with equality only when the clock does not advance between the reads —
then continues the loop with the next electron. -/
theorem conduct_invalid_complete (clock : Nat → Nat)
    (hm : ∀ n, clock n ≤ clock (n + 1)) (t : Nat) (e : Electron)
    (he : e.Validate = false) (rest : List Electron) :
    conduct clock t (e :: rest) =
      ConductOut.completed
        { ElectronID := e.ID, AtomID := e.AtomID
          Start := clock t, End := clock (t + 1)
          Error := some "invalid electron", Result := none } ::
        ConductOut.evt "invalid electron" :: conduct clock (t + 2) rest ∧
    completions (conduct clock t (e :: rest)) =
      { ElectronID := e.ID, AtomID := e.AtomID
        Start := clock t, End := clock (t + 1)
        Error := some "invalid electron", Result := none } ::
        completions (conduct clock (t + 2) rest) ∧
    (some "invalid electron" : Option String).isSome = true ∧
    clock t ≤ clock (t + 1) := by
  refine ⟨?_, ?_, rfl, hm t⟩
  · simp [conduct, he]
  · simp [conduct, he, completions]

/-- C3 witness: the amended statement at the identity clock, an
invalid electron and an empty remainder of the stream. -/
theorem conduct_invalid_complete_witness :
    completions (conduct (fun n => n) 0 [invalidElectron]) =
      { ElectronID := invalidElectron.ID, AtomID := invalidElectron.AtomID
        Start := 0, End := 1
        Error := some "invalid electron", Result := none } ::
        completions (conduct (fun n => n) 2 []) :=
  ((conduct_invalid_complete (fun n => n) (fun n => Nat.le_succ n) 0
    invalidElectron (by decide) []).2).1

/-! ## C9 -/

/-- C9: within one conductor, the electrons forwarded onto the
dispatcher intake channel are exactly the valid ones among those
pulled from the conductor's receive stream, in receive order. -/
theorem conduct_forwards_receive_order (clock : Nat → Nat) (t : Nat)
    (es : List Electron) :
    forwards (conduct clock t es) = es.filter (fun e => e.Validate) := by
  induction es generalizing t with
  | nil => simp [conduct, forwards]
  | cons e rest ih =>
    by_cases he : e.Validate
    · simp [conduct, he, forwards, List.filter_cons] at ih ⊢
      exact ih t
    · simp only [Bool.not_eq_true] at he
      simp [conduct, he, forwards, List.filter_cons] at ih ⊢
      exact ih (t + 2)

/-! ## C4 -/

/-- C4: an instance taken from intake whose `AtomID` is not in the
routing table produces a "not registered" event and is dropped: the
distribution loop pushes nothing for it on any atom channel, never
calls the conductor's `Complete` at all, and proceeds with the next
instance. -/
theorem distribute_not_registered (atoms : List (String × Nat))
    (inst : Instance) (rest : List Instance)
    (h : lookupAtoms atoms inst.electron.AtomID = none) :
    distribute atoms (inst :: rest) =
      DistOut.evt "not registered" inst.electron.AtomID ::
        distribute atoms rest ∧
    pushes (distribute atoms (inst :: rest)) =
      pushes (distribute atoms rest) ∧
    (∀ (tbl : List (String × Nat)) (insts : List Instance),
      distCompletions (distribute tbl insts) = []) := by
  have hnc : ∀ (tbl : List (String × Nat)) (insts : List Instance),
      distCompletions (distribute tbl insts) = [] := by
    intro tbl insts
    induction insts with
    | nil => simp [distribute, distCompletions]
    | cons i is ih =>
      rcases hl : lookupAtoms tbl i.electron.AtomID with _ | ch <;>
        simp [distribute, hl, distCompletions] at ih ⊢ <;> exact ih
  refine ⟨?_, ?_, hnc⟩
  · simp [distribute, h]
  · simp [distribute, h, pushes]

/-- C4 witness: an instance aimed at an unregistered atom "missing"
(scenario 2 of spec §8) against the empty routing table. -/
theorem distribute_not_registered_witness :
    distribute [] [{ electron := { SenderID := "s", ID := "e2"
                                   AtomID := "missing", Payload := []
                                   Timeout := none, CopyState := false }
                     conductor := "c" }] =
      DistOut.evt "not registered" "missing" :: distribute [] [] :=
  (distribute_not_registered []
    { electron := { SenderID := "s", ID := "e2", AtomID := "missing"
                    Payload := [], Timeout := none, CopyState := false }
      conductor := "c" } [] rfl).1

/-! ## C5 -/

/-- A prototype atom carrying non-zero state, and an instance. -/
def protoWithState : AtomVal := { ty := "T", fields := [5] }

def inst0 : Instance := { electron := noopelectron, conductor := "c" }

/-- C5 counterexample: the atom handed to the executor for an instance
is the freshly allocated zero value of the prototype's type, not a
structural clone: for a prototype with field state `[5]` the executor
receives field state `[0]`, which differs from the prototype in that
field. -/
theorem split_clone_counterexample :
    splitHanded protoWithState [inst0] =
      [(inst0, { ty := "T", fields := [0] })] ∧
    ({ ty := "T", fields := [0] } : AtomVal) ≠ protoWithState := by
  decide

/-- C5 (amended): every atom handed to the executor by the atom
adapter is a fresh `reflect.New` allocation of the prototype's type —
same type, every field at its zero value, the same field count — and
is computed from the prototype alone, independent of any other
invocation, so state written by one invocation is never observable
from another; it is not a field-wise copy of the prototype. -/
theorem split_handed_fresh_zero (proto : AtomVal) (insts : List Instance)
    (pr : Instance × AtomVal) (h : pr ∈ splitHanded proto insts) :
    pr.2 = reflectNew proto ∧ pr.2.ty = proto.ty ∧
    (∀ f ∈ pr.2.fields, f = 0) ∧
    pr.2.fields.length = proto.fields.length := by
  obtain ⟨i, _, hi⟩ := List.mem_map.mp h
  refine ⟨by rw [← hi], by rw [← hi]; rfl, ?_, by rw [← hi]; simp [reflectNew]⟩
  rw [← hi]
  simp [reflectNew]

/-- C5 witness: the amended statement at the stateful prototype and a
single instance. -/
theorem split_handed_fresh_zero_witness :
    (inst0, reflectNew protoWithState).2 = reflectNew protoWithState ∧
    (inst0, reflectNew protoWithState).2.ty = protoWithState.ty ∧
    (∀ f ∈ (inst0, reflectNew protoWithState).2.fields, f = 0) ∧
    (inst0, reflectNew protoWithState).2.fields.length =
      protoWithState.fields.length :=
  split_handed_fresh_zero protoWithState [inst0]
    (inst0, reflectNew protoWithState) (by decide)

/-! ## C6 -/

/-- C6: an invalid item drained from the registration channel produces
an event and is skipped: the dispatcher state — routing table,
conductor adapters, atom adapters — is unchanged, whichever kind the
item is. -/
theorem register_invalid_skipped (st : AtomizerState)
    (cid aid oid : String) :
    register st (Registration.conductor cid false) =
      (st, ["invalid registration"]) ∧
    register st (Registration.atom aid false) =
      (st, ["invalid registration"]) ∧
    register st (Registration.other oid false) =
      (st, ["invalid registration", "unknown registration type"]) := by
  refine ⟨?_, ?_, rfl⟩ <;>
    simp [register, receiveConductor, receiveAtom, Registration.valid]

/-! ## C10 -/

/-- C10: `receiveConductor` and `receiveAtom` return an error exactly
when the validator rejects the input; in the error case the state is
returned unchanged — no adapter goroutine is recorded and the routing
table gains no entry — and on a valid input no error is returned. -/
theorem receive_error_iff_invalid (st : AtomizerState) (cid aid : String) :
    receiveConductor st cid false = (some "invalid conductor", st) ∧
    (receiveConductor st cid true).1 = none ∧
    receiveAtom st aid false = (some "invalid atom", st) ∧
    (receiveAtom st aid true).1 = none := by
  refine ⟨rfl, ?_, rfl, ?_⟩ <;> simp [receiveConductor, receiveAtom]

/-! ## C7 -/

theorem lookupAtoms_insertAtom_self (tbl : List (String × Nat))
    (k : String) (v : Nat) :
    lookupAtoms (insertAtom tbl k v) k = some v := by
  induction tbl with
  | nil => simp [insertAtom, lookupAtoms]
  | cons p rest ih =>
    by_cases hk : p.1 = k <;>
      simp [insertAtom, hk, lookupAtoms, ih]

theorem lookupAtoms_insertAtom_ne (tbl : List (String × Nat))
    (k k' : String) (v : Nat) (h : k' ≠ k) :
    lookupAtoms (insertAtom tbl k v) k' = lookupAtoms tbl k' := by
  have hkk : ¬ k = k' := fun hh => h hh.symm
  induction tbl with
  | nil => simp [insertAtom, lookupAtoms, hkk]
  | cons p rest ih =>
    obtain ⟨p1, p2⟩ := p
    by_cases hk : p1 = k
    · subst hk
      simp [insertAtom, lookupAtoms, hkk]
    · have hstep : insertAtom ((p1, p2) :: rest) k v =
          (p1, p2) :: insertAtom rest k v := by
        simp [insertAtom, hk]
      rw [hstep]
      by_cases hk' : p1 = k' <;> simp [lookupAtoms, hk', ih]

theorem mem_keys_insertAtom (tbl : List (String × Nat)) (k x : String)
    (v : Nat) :
    x ∈ (insertAtom tbl k v).map Prod.fst ↔
      x = k ∨ x ∈ tbl.map Prod.fst := by
  induction tbl with
  | nil => simp [insertAtom]
  | cons p rest ih =>
    obtain ⟨p1, p2⟩ := p
    by_cases hk : p1 = k
    · subst hk
      have hstep : insertAtom ((p1, p2) :: rest) p1 v = (p1, v) :: rest := by
        simp [insertAtom]
      rw [hstep]
      simp only [List.map_cons, List.mem_cons]
      tauto
    · have hstep : insertAtom ((p1, p2) :: rest) k v =
          (p1, p2) :: insertAtom rest k v := by
        simp [insertAtom, hk]
      rw [hstep]
      simp only [List.map_cons, List.mem_cons, ih]
      tauto

theorem nodup_keys_insertAtom (tbl : List (String × Nat)) (k : String)
    (v : Nat) (h : (tbl.map Prod.fst).Nodup) :
    ((insertAtom tbl k v).map Prod.fst).Nodup := by
  induction tbl with
  | nil => simp [insertAtom]
  | cons p rest ih =>
    obtain ⟨p1, p2⟩ := p
    rw [List.map_cons, List.nodup_cons] at h
    by_cases hk : p1 = k
    · subst hk
      have hstep : insertAtom ((p1, p2) :: rest) p1 v = (p1, v) :: rest := by
        simp [insertAtom]
      rw [hstep, List.map_cons, List.nodup_cons]
      exact h
    · have hstep : insertAtom ((p1, p2) :: rest) k v =
          (p1, p2) :: insertAtom rest k v := by
        simp [insertAtom, hk]
      rw [hstep, List.map_cons, List.nodup_cons]
      refine ⟨?_, ih h.2⟩
      rw [mem_keys_insertAtom]
      push_neg
      exact ⟨hk, h.1⟩

/-- C7: after registering a valid atom the routing table contains the
atom's ID, mapped to the new adapter's channel; an already present key
is replaced (every other key keeps its previous channel) and key
uniqueness — at most one channel per AtomID — is preserved. -/
theorem routing_table_replace (st : AtomizerState) (id : String)
    (hnd : (st.atoms.map Prod.fst).Nodup) :
    (receiveAtom st id true).2.atoms = insertAtom st.atoms id st.nextChan ∧
    lookupAtoms (receiveAtom st id true).2.atoms id = some st.nextChan ∧
    (∀ k, k ≠ id →
      lookupAtoms (receiveAtom st id true).2.atoms k =
        lookupAtoms st.atoms k) ∧
    (((receiveAtom st id true).2.atoms.map Prod.fst).Nodup) := by
  refine ⟨rfl, ?_, ?_, ?_⟩
  · simp [receiveAtom, lookupAtoms_insertAtom_self]
  · intro k hk
    simp [receiveAtom, lookupAtoms_insertAtom_ne st.atoms id k st.nextChan hk]
  · simp [receiveAtom]
    exact nodup_keys_insertAtom st.atoms id st.nextChan hnd

/-- C7 witness: re-registering atom "echo" over a table that already
maps it replaces its channel with the fresh one and keeps "other". -/
theorem routing_table_replace_witness :
    (receiveAtom { atoms := [("echo", 0), ("other", 1)]
                   conductAdapters := [], atomAdapters := ["echo", "other"]
                   nextChan := 2 } "echo" true).2.atoms =
      insertAtom [("echo", 0), ("other", 1)] "echo" 2 ∧
    lookupAtoms (receiveAtom { atoms := [("echo", 0), ("other", 1)]
                               conductAdapters := []
                               atomAdapters := ["echo", "other"]
                               nextChan := 2 } "echo" true).2.atoms "echo" =
      some 2 ∧
    (∀ k, k ≠ "echo" →
      lookupAtoms (receiveAtom { atoms := [("echo", 0), ("other", 1)]
                                 conductAdapters := []
                                 atomAdapters := ["echo", "other"]
                                 nextChan := 2 } "echo" true).2.atoms k =
        lookupAtoms [("echo", 0), ("other", 1)] k) ∧
    ((receiveAtom { atoms := [("echo", 0), ("other", 1)]
                    conductAdapters := [], atomAdapters := ["echo", "other"]
                    nextChan := 2 } "echo" true).2.atoms.map
        Prod.fst).Nodup :=
  routing_table_replace
    { atoms := [("echo", 0), ("other", 1)], conductAdapters := []
      atomAdapters := ["echo", "other"], nextChan := 2 } "echo"
    (by decide)

/-! ## C8 -/

/-- C8 counterexample: an event failing validation (for example a nil
error value passed to `a.event`) while a consumer is attached and the
dispatcher is not cancelled is dropped — which is none of the three
behaviours the claim enumerates (delivered; dropped because no
consumer is attached; returned because cancellation is done). -/
theorem event_trichotomy_counterexample :
    event true false false = EmitOutcome.droppedInvalid ∧
    ¬ (event true false false = EmitOutcome.delivered ∨
        (event true false false = EmitOutcome.droppedNoConsumer ∧
          true = false) ∨
        (event true false false = EmitOutcome.returnedCancelled ∧
          false = true)) := by
  decide

/-- C8 (amended): every emission either delivers the event, drops it
because no consumer is attached, drops it because the event fails
validation, or returns once the dispatcher's cancellation scope is
done — in particular emission never blocks under shutdown. -/
theorem event_outcomes (h c v : Bool) :
    event h c v = EmitOutcome.delivered ∨
    (event h c v = EmitOutcome.droppedNoConsumer ∧ h = false) ∨
    (event h c v = EmitOutcome.droppedInvalid ∧ v = false) ∨
    (event h c v = EmitOutcome.returnedCancelled ∧ c = true) := by
  revert h c v
  decide

end Atomizer
